import Mathlib

/-!
Verification of the crimson `SocketConnection` protocol engine, embedded from
`src/crimson/net/SocketConnection.h`.  The header declares the connection state
(`state`, `out_seq`, `in_seq`, `out_q`, `sent`, the handshake scratch state) with
its default member initializers, and the inline accessors; the member-function
bodies live in a translation unit that is not part of the sources, so those
operations are modelled from the specification, as marked on each definition.
Machine integers (`seq_num_t`, `uint32_t`) are modelled as `Nat`: the protocol
counters only ever increment by one from zero, far below any wrap-around.
-/

namespace CephNet

/-- A `MessageRef` is an opaque message envelope; for the queue and sequencing
logic only its identity and its header sequence number matter. -/
structure MessageRef where
  id : Nat
  seq : Nat
  deriving DecidableEq, Repr

/-- The connection states of `SocketConnection::state_t` (header lines 39-45):
`none`, `open`, `standby`, `closed`, `wait`.  `open` is a Lean keyword, hence
the trailing underscore. -/
inductive state_t
  | none
  | open_
  | standby
  | closed
  | wait
  deriving DecidableEq, Repr

/-- The handshake scratch state `SocketConnection::Handshake` (header lines
61-72), restricted to the fields the claims mention, with the header's default
member initializers `got_bad_auth = false`, `connect_seq = 0`,
`peer_global_seq = 0`. -/
structure Handshake where
  got_bad_auth : Bool
  connect_seq : Nat
  peer_global_seq : Nat
  deriving DecidableEq, Repr

/-- The `SocketConnection` state relevant to the claims: current state, the
transmit and receive sequence counters, the pending queue `out_q`, the
unacknowledged queue `sent`, the handshake scratch state `h`, and the
policy's lossy flag. -/
structure SocketConnection where
  state : state_t
  out_seq : Nat
  in_seq : Nat
  out_q : List MessageRef
  sent : List MessageRef
  h : Handshake
  lossy : Bool
  deriving DecidableEq, Repr

/-- A freshly constructed connection, per the default member initializers in the
header: `state = state_t::none` (line 46), `out_seq = 0` (line 128),
`in_seq = 0` (line 130), `h.got_bad_auth = false` (line 64),
`h.connect_seq = 0` (line 68), `h.peer_global_seq = 0` (line 69); the queues
are default-constructed empty.  The lossy flag comes from the policy. -/
def SocketConnection.init (lossy : Bool) : SocketConnection :=
  { state := state_t.none
    out_seq := 0
    in_seq := 0
    out_q := []
    sent := []
    h := { got_bad_auth := false, connect_seq := 0, peer_global_seq := 0 }
    lossy := lossy }

/-- Modelled from the spec: the body of `update_rx_seq` (declared at header line
134) lives in the missing translation unit.  Per the spec (the Sequence & Queue
Tracker contract and the invariant on `in_seq`), `validate_and_advance_rx`
accepts exactly `seq = in_seq + 1`, updating `in_seq` to `seq`, and returns
false leaving `in_seq` unchanged otherwise. -/
def update_rx_seq (c : SocketConnection) (seq : Nat) : Bool × SocketConnection :=
  if seq = c.in_seq + 1 then (true, { c with in_seq := seq })
  else (false, c)

/-- Modelled from the spec: the body of `requeue_sent` (declared at header line
219) lives in the missing translation unit.  Per the spec, `requeue_sent()`
prepends `sent` (in order) back onto `out_q` and clears `sent`. -/
def requeue_sent (c : SocketConnection) : SocketConnection :=
  { c with out_q := c.sent ++ c.out_q, sent := [] }

/-- Modelled from the spec: the body of `fault` (declared at header line 158)
lives in the missing translation unit.  Per the spec's state machine, a fault on
a lossy connection discards `sent` and `out_q` unconditionally and the
connection closes; on a non-lossy connection `requeue_sent()` runs first and the
connection enters `wait`. -/
def fault (c : SocketConnection) : SocketConnection :=
  if c.lossy then
    { c with out_q := [], sent := [], state := state_t.closed }
  else
    { requeue_sent c with state := state_t.wait }

/-- Modelled from the spec: the body of `discard_up_to` (declared at header line
144) lives in the missing translation unit.  Per the spec, `record_ack`
(cumulative ack) removes from the queue all messages with sequence number at
most the acked sequence, keeping everything above it. -/
def discard_up_to (q : List MessageRef) (k : Nat) : List MessageRef :=
  q.filter (fun m => decide (k < m.seq))

/-- Outcome of the client handling a `BAD_AUTHORIZER` connect reply. -/
inductive HandshakeAction
  | retry_refreshed_authorizer
  | fail_permanent
  deriving DecidableEq, Repr

/-- Modelled from the spec: the `BAD_AUTHORIZER` branch of
`handle_connect_reply` (declared at header line 93) lives in the missing
translation unit.  Per the spec, the client records `got_bad_auth` and retries
once with a refreshed authorizer; if `got_bad_auth` is already set the
handshake fails permanently. -/
def handle_bad_authorizer (hs : Handshake) : HandshakeAction × Handshake :=
  if hs.got_bad_auth then (HandshakeAction.fail_permanent, hs)
  else (HandshakeAction.retry_refreshed_authorizer, { hs with got_bad_auth := true })

/-- `get_out_queue` as defined inline in the header (lines 221-223): it returns
`{out_seq, std::move(out_q)}`; the move transfers the queue's contents out of
the connection, leaving the connection's own `out_q` empty. -/
def get_out_queue (c : SocketConnection) : (Nat × List MessageRef) × SocketConnection :=
  ((c.out_seq, c.out_q), { c with out_q := [] })

/-- A frame travelling through the serialized write pipeline: either a data
message carrying its assigned sequence number, or a keepalive probe (which
carries no message sequence number). -/
inductive Frame
  | msg (seq : Nat)
  | keepalive_probe
  deriving DecidableEq, Repr

/-- The message sequence number of a frame, if it has one. -/
def frame_seq : Frame → Option Nat
  | Frame.msg s => some s
  | Frame.keepalive_probe => none

/-- The write-pipeline view of a connection: `out_seq` is the last assigned
message sequence number, `submitted` the frames chained onto `send_ready` in
submission order, `started` the frames whose wire write has begun (in start
order), and `finished_count` how many of those writes have completed. -/
structure WriteState where
  out_seq : Nat
  submitted : List Frame
  started : List Frame
  finished_count : Nat
  deriving DecidableEq, Repr

/-- Modelled from the spec: the body of `send` (declared at header line 175)
lives in the missing translation unit.  Per the spec, `send(msg)` assigns the
next sequence number (`out_seq + 1`) and chains the write of that message as a
continuation of `send_ready`, i.e. appends it to the pipeline. -/
def send (w : WriteState) : WriteState :=
  { w with out_seq := w.out_seq + 1
           submitted := w.submitted ++ [Frame.msg (w.out_seq + 1)] }

/-- Modelled from the spec: the body of `keepalive` (declared at header line
177) lives in the missing translation unit.  Per the spec, `keepalive()`
enqueues a keepalive probe frame through the same serialized write pipeline and
does not consume a message sequence number. -/
def keepalive (w : WriteState) : WriteState :=
  { w with submitted := w.submitted ++ [Frame.keepalive_probe] }

/-- Modelled from the spec: one step of the connection's write activity.  A
caller may submit a message or a keepalive; the pipeline may start writing the
next submitted frame, but — since every write is chained as a continuation of
`send_ready`, the completion of all previously submitted writes — only once
every started write has finished; a started write may finish. -/
inductive WStep : WriteState → WriteState → Prop
  | send_msg (w : WriteState) : WStep w (send w)
  | send_keepalive (w : WriteState) : WStep w (keepalive w)
  | start_write (w : WriteState) (h1 : w.finished_count = w.started.length)
      (h2 : w.started.length < w.submitted.length) :
      WStep w { w with started := w.started ++ [w.submitted.get ⟨w.started.length, h2⟩] }
  | finish_write (w : WriteState) (h : w.finished_count < w.started.length) :
      WStep w { w with finished_count := w.finished_count + 1 }

/-- The write states reachable from a fresh connection (empty pipeline,
`out_seq = 0`). -/
inductive WReach : WriteState → Prop
  | init : WReach ⟨0, [], [], 0⟩
  | step {w w' : WriteState} : WReach w → WStep w w' → WReach w'

/-- The inductive invariant of the write pipeline: the message sequence numbers
submitted so far are exactly `1, …, out_seq` in order; the started writes are a
prefix of the submitted frames; and the number of unfinished started writes is
at most one. -/
def WInv (w : WriteState) : Prop :=
  w.submitted.filterMap frame_seq = List.range' 1 w.out_seq ∧
  w.started = w.submitted.take w.started.length ∧
  w.finished_count ≤ w.started.length ∧
  w.started.length ≤ w.finished_count + 1

theorem winv_init : WInv ⟨0, [], [], 0⟩ := by
  refine ⟨rfl, rfl, Nat.le_refl 0, Nat.le_succ 0⟩

theorem winv_step {w w' : WriteState} (hw : WInv w) (hs : WStep w w') : WInv w' := by
  obtain ⟨hseq, htake, hfin, hone⟩ := hw
  have hlen : w.started.length ≤ w.submitted.length := by
    have := congrArg List.length htake
    simp only [List.length_take] at this
    omega
  cases hs with
  | send_msg =>
    refine ⟨?_, ?_, hfin, hone⟩
    · show (w.submitted ++ [Frame.msg (w.out_seq + 1)]).filterMap frame_seq
          = List.range' 1 (w.out_seq + 1)
      rw [List.filterMap_append, hseq, List.range'_concat]
      simp [frame_seq, Nat.add_comm]
    · show w.started = (w.submitted ++ [Frame.msg (w.out_seq + 1)]).take w.started.length
      rw [List.take_append_of_le_length hlen]
      exact htake
  | send_keepalive =>
    refine ⟨?_, ?_, hfin, hone⟩
    · show (w.submitted ++ [Frame.keepalive_probe]).filterMap frame_seq
          = List.range' 1 w.out_seq
      rw [List.filterMap_append, hseq]
      simp [frame_seq]
    · show w.started = (w.submitted ++ [Frame.keepalive_probe]).take w.started.length
      rw [List.take_append_of_le_length hlen]
      exact htake
  | start_write h1 h2 =>
    refine ⟨hseq, ?_, ?_, ?_⟩
    · show w.started ++ [w.submitted.get ⟨w.started.length, h2⟩]
          = w.submitted.take
              (w.started ++ [w.submitted.get ⟨w.started.length, h2⟩]).length
      rw [List.length_append, List.length_singleton,
        ← List.take_concat_get w.submitted w.started.length h2, List.concat_eq_append,
        ← htake]
      rfl
    · show w.finished_count
          ≤ (w.started ++ [w.submitted.get ⟨w.started.length, h2⟩]).length
      rw [List.length_append, List.length_singleton]
      omega
    · show (w.started ++ [w.submitted.get ⟨w.started.length, h2⟩]).length
          ≤ w.finished_count + 1
      rw [List.length_append, List.length_singleton]
      omega
  | finish_write h =>
    refine ⟨hseq, htake, ?_, ?_⟩
    · show w.finished_count + 1 ≤ w.started.length
      omega
    · show w.started.length ≤ w.finished_count + 1 + 1
      omega

theorem wreach_inv (w : WriteState) (hw : WReach w) : WInv w := by
  induction hw with
  | init => exact winv_init
  | step hr hs ih => exact winv_step ih hs

/-- Strictly increasing sequence numbers along `List.range'` with step 1. -/
theorem pairwise_lt_range'_one (s n : Nat) : (List.range' s n).Pairwise (· < ·) := by
  induction n generalizing s with
  | zero => exact List.Pairwise.nil
  | succ n ih =>
    rw [List.range'_succ]
    refine List.Pairwise.cons ?_ (ih (s + 1))
    intro b hb
    have := (List.mem_range'_1.mp hb).1
    omega

/-- C4: in every reachable write state, the frames written to the wire are an
initial segment of the frames submitted (write order equals submission order),
at most one write is ever in flight (started writes exceed finished writes by
at most one), and the message sequence numbers assigned by `send` are strictly
increasing along the pipeline. -/
theorem send_serialized_write_order (w : WriteState) (hw : WReach w) :
    w.started = w.submitted.take w.started.length ∧
    w.started.length ≤ w.finished_count + 1 ∧
    (w.submitted.filterMap frame_seq).Pairwise (· < ·) := by
  obtain ⟨hseq, htake, hfin, hone⟩ := wreach_inv w hw
  refine ⟨htake, hone, ?_⟩
  rw [hseq]
  exact pairwise_lt_range'_one 1 w.out_seq

/-- Witness for C4: two sends followed by starting and finishing the first
write and starting the second. -/
theorem send_serialized_write_order_witness :
    (⟨2, [Frame.msg 1, Frame.msg 2], [Frame.msg 1], 1⟩ : WriteState).started
        = (⟨2, [Frame.msg 1, Frame.msg 2], [Frame.msg 1], 1⟩ : WriteState).submitted.take
            (⟨2, [Frame.msg 1, Frame.msg 2], [Frame.msg 1], 1⟩ : WriteState).started.length ∧
    (⟨2, [Frame.msg 1, Frame.msg 2], [Frame.msg 1], 1⟩ : WriteState).started.length
        ≤ (⟨2, [Frame.msg 1, Frame.msg 2], [Frame.msg 1], 1⟩ : WriteState).finished_count + 1 ∧
    ((⟨2, [Frame.msg 1, Frame.msg 2], [Frame.msg 1], 1⟩ : WriteState).submitted.filterMap
        frame_seq).Pairwise (· < ·) := by
  refine send_serialized_write_order _ ?_
  refine WReach.step (WReach.step (WReach.step (WReach.step WReach.init
    (WStep.send_msg _)) (WStep.send_msg _)) (WStep.start_write _ rfl (by decide))) ?_
  exact WStep.finish_write _ (by decide)

/-- C8: `keepalive` leaves `out_seq` unchanged — the probe consumes no message
sequence number — and the probe frame is appended to the very same serialized
pipeline (`submitted`, the chain on `send_ready`) that `send` appends data
messages to. -/
theorem keepalive_no_seq (w : WriteState) :
    (keepalive w).out_seq = w.out_seq ∧
    (keepalive w).submitted = w.submitted ++ [Frame.keepalive_probe] ∧
    (send w).submitted = w.submitted ++ [Frame.msg (w.out_seq + 1)] := by
  exact ⟨rfl, rfl, rfl⟩

/-- Witness for C8 after one send. -/
theorem keepalive_no_seq_witness :
    (keepalive (send ⟨0, [], [], 0⟩)).out_seq = (send ⟨0, [], [], 0⟩).out_seq ∧
    (keepalive (send ⟨0, [], [], 0⟩)).submitted
        = (send ⟨0, [], [], 0⟩).submitted ++ [Frame.keepalive_probe] ∧
    (send (send ⟨0, [], [], 0⟩)).submitted
        = (send ⟨0, [], [], 0⟩).submitted
            ++ [Frame.msg ((send ⟨0, [], [], 0⟩).out_seq + 1)] :=
  keepalive_no_seq (send ⟨0, [], [], 0⟩)

/-- The externally triggered events that drive the connection state machine. -/
inductive Event
  | handshake_complete
  | go_idle
  | transport_fault
  | explicit_close
  | rehandshake_done
  deriving DecidableEq, Repr

/-- Modelled from the spec: the state transitions of §4.5; the bodies of
`close`, `fault` and the handshake drivers live in the missing translation
unit.  `none → open` on handshake completion; `open → standby` when idle;
`open/standby → wait` on a transport fault when non-lossy and
`open/standby → closed` when lossy; `wait → open` on re-handshake; any state
moves to `closed` on an explicit `close()`; no other transition exists. -/
def step_conn (lossy : Bool) : state_t → Event → Option state_t
  | _, Event.explicit_close => some state_t.closed
  | state_t.none, Event.handshake_complete => some state_t.open_
  | state_t.open_, Event.go_idle => some state_t.standby
  | state_t.open_, Event.transport_fault =>
      some (if lossy then state_t.closed else state_t.wait)
  | state_t.standby, Event.transport_fault =>
      some (if lossy then state_t.closed else state_t.wait)
  | state_t.wait, Event.rehandshake_done => some state_t.open_
  | _, _ => Option.none

/-- The state machine together with the `close_ready` completion signal,
modelled as the number of times the shared promise has been resolved: header
line 49 says `close_ready` becomes valid only when state is `closed`, and the
spec says it is satisfied exactly once, on entering `closed`. -/
structure ConnSM where
  st : state_t
  close_ready_resolved : Nat
  deriving DecidableEq, Repr

/-- Modelled from the spec: one observable step of the connection state
machine; when the transition enters `closed` from a different state, the
`close_ready` completion signal is resolved (its resolution count
increments). -/
def sm_step (lossy : Bool) (c : ConnSM) (e : Event) : Option ConnSM :=
  match step_conn lossy c.st e with
  | some s =>
      some ⟨s, c.close_ready_resolved +
        (if s = state_t.closed ∧ c.st ≠ state_t.closed then 1 else 0)⟩
  | Option.none => Option.none

/-- The machine states reachable from a fresh connection (`state = none`,
`close_ready` unresolved). -/
inductive SMReach (lossy : Bool) : ConnSM → Prop
  | init : SMReach lossy ⟨state_t.none, 0⟩
  | step {c c' : ConnSM} {e : Event} :
      SMReach lossy c → sm_step lossy c e = some c' → SMReach lossy c'

theorem step_conn_closed (lossy : Bool) (e : Event) (s : state_t)
    (h : step_conn lossy state_t.closed e = some s) : s = state_t.closed := by
  cases e <;> simp [step_conn] at h <;> exact h.symm

/-- The inductive invariant tying the `close_ready` resolution count to the
state: resolved exactly once, precisely when the machine is closed. -/
def SMInv (c : ConnSM) : Prop :=
  c.close_ready_resolved = if c.st = state_t.closed then 1 else 0

theorem smreach_inv (lossy : Bool) (c : ConnSM) (h : SMReach lossy c) : SMInv c := by
  induction h with
  | init => simp [SMInv]
  | step hr hstep ih =>
    rename_i a b e
    unfold sm_step at hstep
    rcases hm : step_conn lossy a.st e with _ | s
    · rw [hm] at hstep
      exact absurd hstep (by simp)
    · rw [hm] at hstep
      simp only [Option.some.injEq] at hstep
      subst hstep
      unfold SMInv at ih ⊢
      by_cases hc : a.st = state_t.closed
      · have hs : s = state_t.closed := step_conn_closed lossy e s (hc ▸ hm)
        simp [hs, hc, ih]
      · by_cases hs : s = state_t.closed
        · simp [hs, hc, ih]
        · simp [hs, hc, ih]

/-- C6: once a reachable connection is in `closed`, every step that the machine
can take keeps it in `closed` (the state is terminal), and the `close_ready`
completion signal has been resolved at most once — exactly once precisely when
the connection is closed, so every awaiting caller observes that single
completion. -/
theorem closed_terminal_close_ready_once (lossy : Bool) (c : ConnSM)
    (hr : SMReach lossy c) :
    (∀ e c', c.st = state_t.closed → sm_step lossy c e = some c' →
      c'.st = state_t.closed) ∧
    c.close_ready_resolved ≤ 1 ∧
    (c.close_ready_resolved = 1 ↔ c.st = state_t.closed) := by
  have hinv := smreach_inv lossy c hr
  unfold SMInv at hinv
  refine ⟨?_, ?_, ?_⟩
  · intro e c' hc hstep
    unfold sm_step at hstep
    rcases hm : step_conn lossy c.st e with _ | s
    · rw [hm] at hstep
      exact absurd hstep (by simp)
    · rw [hm] at hstep
      simp only [Option.some.injEq] at hstep
      subst hstep
      exact step_conn_closed lossy e s (hc ▸ hm)
  · by_cases hc : c.st = state_t.closed <;> simp [hc] at hinv <;> omega
  · by_cases hc : c.st = state_t.closed <;> simp [hc] at hinv <;> simp [hc, hinv]

/-- Witness for C6 at the closed state reached by an explicit close from a
fresh connection; the binder-free consequences are the resolution-count
facts. -/
theorem closed_terminal_close_ready_once_witness :
    (⟨state_t.closed, 1⟩ : ConnSM).close_ready_resolved ≤ 1 ∧
    ((⟨state_t.closed, 1⟩ : ConnSM).close_ready_resolved = 1 ↔
      (⟨state_t.closed, 1⟩ : ConnSM).st = state_t.closed) :=
  (closed_terminal_close_ready_once false ⟨state_t.closed, 1⟩
    (@SMReach.step false ⟨state_t.none, 0⟩ ⟨state_t.closed, 1⟩ Event.explicit_close
      SMReach.init (by decide))).2

/-- C1: `update_rx_seq` returns false and leaves the connection (hence `in_seq`)
unchanged whenever `seq` differs from `in_seq + 1`; it returns true and sets
`in_seq` to `seq` exactly when `seq = in_seq + 1`. -/
theorem update_rx_seq_spec (c : SocketConnection) (seq : Nat) :
    (seq = c.in_seq + 1 ∧ (update_rx_seq c seq).1 = true ∧
      ((update_rx_seq c seq).2).in_seq = seq) ∨
    (seq ≠ c.in_seq + 1 ∧ (update_rx_seq c seq).1 = false ∧
      (update_rx_seq c seq).2 = c) := by
  by_cases hs : seq = c.in_seq + 1
  · exact Or.inl ⟨hs, by simp [update_rx_seq, hs]⟩
  · exact Or.inr ⟨hs, by simp [update_rx_seq, hs]⟩

/-- Witness for C1 at a rejecting input. -/
theorem update_rx_seq_spec_witness :
    (7 = (SocketConnection.init false).in_seq + 1 ∧
      (update_rx_seq (SocketConnection.init false) 7).1 = true ∧
      ((update_rx_seq (SocketConnection.init false) 7).2).in_seq = 7) ∨
    (7 ≠ (SocketConnection.init false).in_seq + 1 ∧
      (update_rx_seq (SocketConnection.init false) 7).1 = false ∧
      (update_rx_seq (SocketConnection.init false) 7).2 = SocketConnection.init false) :=
  update_rx_seq_spec (SocketConnection.init false) 7

/-- C2: on a non-lossy connection, `requeue_sent` puts the old `sent` in front
of the old `out_q` (preserving relative order), empties `sent`, and neither
duplicates nor loses any message (counted with multiplicity across both
queues). -/
theorem requeue_sent_spec (c : SocketConnection) (_hl : c.lossy = false) :
    (requeue_sent c).out_q = c.sent ++ c.out_q ∧
    (requeue_sent c).sent = [] ∧
    ∀ m : MessageRef,
      (requeue_sent c).out_q.count m + (requeue_sent c).sent.count m
        = c.sent.count m + c.out_q.count m := by
  refine ⟨rfl, rfl, fun m => ?_⟩
  simp [requeue_sent, List.count_append]

/-- Witness for C2 on a concrete non-lossy connection with one sent and one
queued message. -/
theorem requeue_sent_spec_witness :
    (requeue_sent
        { SocketConnection.init false with
            sent := [⟨1, 1⟩], out_q := [⟨2, 2⟩] }).out_q = [⟨1, 1⟩] ++ [⟨2, 2⟩] ∧
    (requeue_sent
        { SocketConnection.init false with
            sent := [⟨1, 1⟩], out_q := [⟨2, 2⟩] }).sent = [] ∧
    (requeue_sent
        { SocketConnection.init false with
            sent := [⟨1, 1⟩], out_q := [⟨2, 2⟩] }).out_q.count ⟨1, 1⟩ +
      (requeue_sent
        { SocketConnection.init false with
            sent := [⟨1, 1⟩], out_q := [⟨2, 2⟩] }).sent.count ⟨1, 1⟩
        = List.count (⟨1, 1⟩ : MessageRef) [⟨1, 1⟩]
            + List.count (⟨1, 1⟩ : MessageRef) [⟨2, 2⟩] := by
  have h := requeue_sent_spec
    { SocketConnection.init false with sent := [⟨1, 1⟩], out_q := [⟨2, 2⟩] } rfl
  exact ⟨h.1, h.2.1, h.2.2 ⟨1, 1⟩⟩

/-- C3: a fault on a lossy connection leaves both `out_q` and `sent` empty. -/
theorem fault_lossy_discards (c : SocketConnection) (hl : c.lossy = true) :
    (fault c).out_q = [] ∧ (fault c).sent = [] := by
  rw [fault, hl]
  exact ⟨rfl, rfl⟩

/-- Witness for C3 on a concrete lossy connection with pending messages. -/
theorem fault_lossy_discards_witness :
    (fault { SocketConnection.init true with
        sent := [⟨1, 1⟩], out_q := [⟨2, 2⟩] }).out_q = [] ∧
    (fault { SocketConnection.init true with
        sent := [⟨1, 1⟩], out_q := [⟨2, 2⟩] }).sent = [] :=
  fault_lossy_discards
    { SocketConnection.init true with sent := [⟨1, 1⟩], out_q := [⟨2, 2⟩] } rfl

/-- C5: the cumulative-ack discard is idempotent — a second application with the
same target removes nothing, leaving contents and length unchanged — and it is a
no-op on any queue from which everything at or below the target is already
gone. -/
theorem discard_up_to_idem (q : List MessageRef) (k : Nat) :
    discard_up_to (discard_up_to q k) k = discard_up_to q k ∧
    (discard_up_to (discard_up_to q k) k).length = (discard_up_to q k).length ∧
    (q.all (fun m => decide (k < m.seq)) = true → discard_up_to q k = q) := by
  have hidem : discard_up_to (discard_up_to q k) k = discard_up_to q k := by
    simp [discard_up_to, List.filter_filter]
  refine ⟨hidem, by rw [hidem], fun hall => ?_⟩
  exact List.filter_eq_self.mpr (by simpa [List.all_eq_true] using hall)

/-- Witness for C5 on a concrete queue whose entries all exceed the target. -/
theorem discard_up_to_idem_witness :
    discard_up_to (discard_up_to [⟨1, 5⟩, ⟨2, 7⟩] 3) 3
        = discard_up_to [⟨1, 5⟩, ⟨2, 7⟩] 3 ∧
    (discard_up_to (discard_up_to [⟨1, 5⟩, ⟨2, 7⟩] 3) 3).length
        = (discard_up_to [⟨1, 5⟩, ⟨2, 7⟩] 3).length ∧
    discard_up_to [⟨1, 5⟩, ⟨2, 7⟩] 3 = [⟨1, 5⟩, ⟨2, 7⟩] := by
  have h := discard_up_to_idem [⟨1, 5⟩, ⟨2, 7⟩] 3
  exact ⟨h.1, h.2.1, h.2.2 (by decide)⟩

/-- C7: a first `BAD_AUTHORIZER` reply (with `got_bad_auth` still false) causes
a retry with a refreshed authorizer and records `got_bad_auth`; a second
consecutive `BAD_AUTHORIZER` reply then fails permanently, changing nothing
further. -/
theorem bad_authorizer_retry_once (hs : Handshake) (hb : hs.got_bad_auth = false) :
    (handle_bad_authorizer hs).1 = HandshakeAction.retry_refreshed_authorizer ∧
    ((handle_bad_authorizer hs).2).got_bad_auth = true ∧
    (handle_bad_authorizer (handle_bad_authorizer hs).2).1
        = HandshakeAction.fail_permanent ∧
    (handle_bad_authorizer (handle_bad_authorizer hs).2).2
        = (handle_bad_authorizer hs).2 := by
  simp [handle_bad_authorizer, hb]

/-- Witness for C7 from the freshly initialized handshake state. -/
theorem bad_authorizer_retry_once_witness :
    (handle_bad_authorizer ⟨false, 0, 0⟩).1
        = HandshakeAction.retry_refreshed_authorizer ∧
    ((handle_bad_authorizer ⟨false, 0, 0⟩).2).got_bad_auth = true ∧
    (handle_bad_authorizer (handle_bad_authorizer ⟨false, 0, 0⟩).2).1
        = HandshakeAction.fail_permanent ∧
    (handle_bad_authorizer (handle_bad_authorizer ⟨false, 0, 0⟩).2).2
        = (handle_bad_authorizer ⟨false, 0, 0⟩).2 :=
  bad_authorizer_retry_once ⟨false, 0, 0⟩ rfl

/-- C9: a freshly constructed connection has `state = none`, `out_seq = 0`,
`in_seq = 0`, `h.connect_seq = 0`, `h.peer_global_seq = 0`, and
`h.got_bad_auth = false`, straight from the header's default member
initializers. -/
theorem socket_connection_init_fields (lossy : Bool) :
    (SocketConnection.init lossy).state = state_t.none ∧
    (SocketConnection.init lossy).out_seq = 0 ∧
    (SocketConnection.init lossy).in_seq = 0 ∧
    ((SocketConnection.init lossy).h).connect_seq = 0 ∧
    ((SocketConnection.init lossy).h).peer_global_seq = 0 ∧
    ((SocketConnection.init lossy).h).got_bad_auth = false := by
  exact ⟨rfl, rfl, rfl, rfl, rfl, rfl⟩

/-- C10: `get_out_queue` returns the pair of `out_seq` and the whole current
`out_q`, leaves the connection's own `out_q` empty, and the messages end up in
exactly one place: the returned list and the emptied queue together hold
precisely the old contents, with multiplicity. -/
theorem get_out_queue_spec (c : SocketConnection) :
    (get_out_queue c).1 = (c.out_seq, c.out_q) ∧
    ((get_out_queue c).2).out_q = [] ∧
    ∀ m : MessageRef,
      (get_out_queue c).1.2.count m + ((get_out_queue c).2).out_q.count m
        = c.out_q.count m := by
  exact ⟨rfl, rfl, fun m => by simp [get_out_queue]⟩

/-- Witness for C10 on a concrete connection with two queued messages. -/
theorem get_out_queue_spec_witness :
    (get_out_queue { SocketConnection.init false with
        out_seq := 2, out_q := [⟨1, 1⟩, ⟨2, 2⟩] }).1 = (2, [⟨1, 1⟩, ⟨2, 2⟩]) ∧
    ((get_out_queue { SocketConnection.init false with
        out_seq := 2, out_q := [⟨1, 1⟩, ⟨2, 2⟩] }).2).out_q = [] ∧
    (get_out_queue { SocketConnection.init false with
        out_seq := 2, out_q := [⟨1, 1⟩, ⟨2, 2⟩] }).1.2.count ⟨1, 1⟩ +
      ((get_out_queue { SocketConnection.init false with
        out_seq := 2, out_q := [⟨1, 1⟩, ⟨2, 2⟩] }).2).out_q.count ⟨1, 1⟩
        = List.count (⟨1, 1⟩ : MessageRef) [⟨1, 1⟩, ⟨2, 2⟩] := by
  have h := get_out_queue_spec
    { SocketConnection.init false with out_seq := 2, out_q := [⟨1, 1⟩, ⟨2, 2⟩] }
  exact ⟨h.1, h.2.1, h.2.2 ⟨1, 1⟩⟩

end CephNet
